import Mathlib

/-!
Verification of the go-stream pipeline engine (`src/stream.go`).

The engine is a push-based chain of sinks.  The source stage (`startOp`)
holds the materialised input and, when a terminal operation runs, drives
the chain with `begin(size)`, a run of `accept`, and `end()`, polling
`cancellationRequested` after each `accept`.

`src/stream.go` contains the sink interface, the `baseStage` defaults,
the terminal-method drivers, the input adapter `setStreamData`, and
`startOp.end`.  The concrete op stages (`collectOp`, `limitOp`, `mapOp`,
`maxOp`, …) are declared and used there but their implementations are in
parts of the repository not available here; those are modelled from the
specification and marked as such.
-/

set_option autoImplicit false

namespace GoStream

/-- The comparator contract of the source: `-1` if `a < b`, `0` if equal,
`1` if `a > b` (`ComparatorFunc` in `src/stream.go`). -/
def ComparatorFunc (α : Type) : Type := α → α → Int

/-- `MapFunc` of `src/stream.go`: transforms one value into another. -/
def MapFunc (α : Type) : Type := α → α

/-- An observable event of the sink protocol, as emitted by the source's
drive loop to its immediate downstream sink. -/
inductive Event (α : Type) where
  | begin (size : Nat)
  | accept (v : α)
  | endEv
  deriving DecidableEq, Repr

/-- A sink (the four-message interface of `src/stream.go`), embedded as a
state machine over an explicit state type `σ`.  `endOp` models the Go
method `end()` (`end` is reserved in Lean). -/
structure SinkM (σ : Type) (α : Type) where
  begin : σ → Nat → σ
  accept : σ → α → σ
  endOp : σ → σ
  cancellationRequested : σ → Bool

/-- The default `cancellationRequested` of `baseStage`
(`src/stream.go:234-236`): it returns `false` unconditionally; it does
not consult the downstream sink. -/
def cancellationRequestedDefault : Bool := false

/-- The source stage `startOp` of `src/stream.go:256-260`: the
materialised input buffer plus the `closed` flag.  (The `downStream`
slot of the embedded `baseStage` is passed separately as a `SinkM`.) -/
structure startOp (α : Type) where
  data : List α
  closed : Bool
  deriving DecidableEq, Repr

/-- The iteration of `startOp.end` (`src/stream.go:267-272`): deliver
each element of `data` to the downstream via `accept`, in ascending
index order, and break out as soon as `cancellationRequested` returns
`true` after an `accept`.  Returns the final downstream state and the
list of `accept` events delivered. -/
def driveLoop {σ α : Type} (m : SinkM σ α) : List α → σ → σ × List (Event α)
  | [], s => (s, [])
  | v :: rest, s =>
    let s' := m.accept s v
    if m.cancellationRequested s' then (s', [Event.accept v])
    else
      let r := driveLoop m rest s'
      (r.1, Event.accept v :: r.2)

/-- `startOp.end` (`src/stream.go:262-274`): panic (`none`) if `closed`;
otherwise emit `begin(len(data))`, run the drive loop, and emit `end()`.
The returned `startOp` is the source's state after the drive: the Go
method never assigns `closed`, so it is returned unchanged. -/
def startOpEnd {σ α : Type} (m : SinkM σ α) (st : startOp α) (s₀ : σ) :
    Option (startOp α × σ × List (Event α)) :=
  if st.closed then none
  else
    let s₁ := m.begin s₀ st.data.length
    let r := driveLoop m st.data s₁
    some (st, m.endOp r.1, Event.begin st.data.length :: r.2 ++ [Event.endEv])

/-- Modelled from the spec: `collectOp` (its implementation is not under
`src/`).  §4.5: "Appends each accept to an ordered list; returns the
list"; `cancellationRequested` is the `baseStage` default. -/
def collectOp {α : Type} : SinkM (List α) α where
  begin := fun s _ => s
  accept := fun s v => s ++ [v]
  endOp := fun s => s
  cancellationRequested := fun _ => cancellationRequestedDefault

/-- Modelled from the spec: `countOp`.  §4.5: "Increments a counter;
returns it". -/
def countOp {α : Type} : SinkM Nat α where
  begin := fun s _ => s
  accept := fun s _ => s + 1
  endOp := fun s => s
  cancellationRequested := fun _ => cancellationRequestedDefault

/-- Modelled from the spec: `firstOp`.  §4.5: "Stores first accepted
value, then signals cancellation.  Returns stored value or nil". -/
def firstOp {α : Type} : SinkM (Option α) α where
  begin := fun s _ => s
  accept := fun s v => match s with | none => some v | some x => some x
  endOp := fun s => s
  cancellationRequested := fun s => s.isSome

/-- Modelled from the spec: `lastOp`.  §4.5: "Stores every accepted
value (overwriting).  Returns final stored value or nil". -/
def lastOp {α : Type} : SinkM (Option α) α where
  begin := fun s _ => s
  accept := fun _ v => some v
  endOp := fun s => s
  cancellationRequested := fun _ => cancellationRequestedDefault

/-- Modelled from the spec: `maxOp`.  §4.5: "on first accept, stores
`v`; on subsequent, replaces if comparator indicates strictly more.
Returns extremum or nil on empty". -/
def maxOp {α : Type} (cmp : ComparatorFunc α) : SinkM (Option α) α where
  begin := fun s _ => s
  accept := fun s v =>
    match s with
    | none => some v
    | some c => if cmp v c > 0 then some v else some c
  endOp := fun s => s
  cancellationRequested := fun _ => cancellationRequestedDefault

/-- Modelled from the spec: `minOp`.  §4.5: like `maxOp` with "strictly
less". -/
def minOp {α : Type} (cmp : ComparatorFunc α) : SinkM (Option α) α where
  begin := fun s _ => s
  accept := fun s v =>
    match s with
    | none => some v
    | some c => if cmp v c < 0 then some v else some c
  endOp := fun s => s
  cancellationRequested := fun _ => cancellationRequestedDefault

/-- Modelled from the spec: `mapOp` wrapping its downstream sink.  §4.3:
"Map(f): forward `f(v)`"; it overrides only `accept`, so its
`cancellationRequested` is the `baseStage` default
(`src/stream.go:234-236`), which returns `false`. -/
def mapSink {σ α : Type} (f : MapFunc α) (m : SinkM σ α) : SinkM σ α where
  begin := m.begin
  accept := fun s v => m.accept s (f v)
  endOp := m.endOp
  cancellationRequested := fun _ => cancellationRequestedDefault

/-- `mapOp` instrumented with an invocation counter for the user's
`MapFunc`: the first component counts exactly the applications of `f`
(one per `accept`, as in `mapSink`). -/
def countingMapSink {σ α : Type} (f : MapFunc α) (m : SinkM σ α) :
    SinkM (Nat × σ) α where
  begin := fun s n => (s.1, m.begin s.2 n)
  accept := fun s v => (s.1 + 1, m.accept s.2 (f v))
  endOp := fun s => (s.1, m.endOp s.2)
  cancellationRequested := fun _ => cancellationRequestedDefault

/-- Modelled from the spec: `limitOp` wrapping its downstream sink,
with its forwarded-element counter as local state.  §4.3: "Forward at
most `n` elements; after the `n`-th accept, return true from
`cancellationRequested` forever"; §4.3 also lets it refine the size
hint to `min(size, n)`. -/
def limitOp {σ α : Type} (n : Nat) (m : SinkM σ α) : SinkM (Nat × σ) α where
  begin := fun s sz => (s.1, m.begin s.2 (min sz n))
  accept := fun s v => if s.1 < n then (s.1 + 1, m.accept s.2 v) else s
  endOp := fun s => (s.1, m.endOp s.2)
  cancellationRequested := fun s => n ≤ s.1

/-- The Go kind of a value handed to the input adapter: an ordered
container (slice or array), a pointer to some value, or anything else
(`reflect.Kind` cases of `src/stream.go:111-121`). -/
inductive GoValue (α : Type) where
  | slice (xs : List α)
  | array (xs : List α)
  | ptr (v : GoValue α)
  | other
  deriving DecidableEq, Repr

/-- One `reflect.Value.Elem()` dereference, applied when the kind is
`Ptr` (`src/stream.go:108-110`); applied exactly once. -/
def derefOnce {α : Type} : GoValue α → GoValue α
  | .ptr v => v
  | v => v

/-- The element-copy loop of `setStreamData` (`src/stream.go:113-117`):
start from an empty buffer and append each element in index order. -/
def copyLoop {α : Type} (xs : List α) : List α :=
  xs.foldl (fun acc v => acc ++ [v]) []

/-- Whether a value's kind is `reflect.Slice` or `reflect.Array`. -/
def isOrderedContainer {α : Type} : GoValue α → Bool
  | .slice _ => true
  | .array _ => true
  | _ => false

/-- `setStreamData` (`src/stream.go:106-123`): dereference a pointer
once, then accept a slice or array by copying its elements into a fresh
buffer; panic (`none`) on any other kind. -/
def setStreamData {α : Type} (data : GoValue α) : Option (List α) :=
  match derefOnce data with
  | .slice xs => some (copyLoop xs)
  | .array xs => some (copyLoop xs)
  | _ => none

/-- `New` (`src/stream.go:94-99`): wrap the given data into a source
stage, initially not closed. -/
def New {α : Type} (data : GoValue α) : Option (startOp α) :=
  (setStreamData data).map (fun d => { data := d, closed := false })

/-- `Of` (`src/stream.go:102-104`): `New` applied to the slice of the
variadic arguments. -/
def Of {α : Type} (elements : List α) : Option (startOp α) :=
  New (GoValue.slice elements)

namespace baseStage

/-- `baseStage.Collect` (`src/stream.go:185-189`): attach a `collectOp`
and drive the source; read out the collected list.  `none` models the
`PipelineClosed` panic propagating out of the terminal call. -/
def Collect {α : Type} (st : startOp α) : Option (List α) :=
  (startOpEnd collectOp st []).map (fun r => r.2.1)

/-- `baseStage.Count` (`src/stream.go:191-195`). -/
def Count {α : Type} (st : startOp α) : Option Nat :=
  (startOpEnd countOp st 0).map (fun r => r.2.1)

/-- `baseStage.First` (`src/stream.go:197-201`): result `some none`
models Go's nil result on empty input. -/
def First {α : Type} (st : startOp α) : Option (Option α) :=
  (startOpEnd firstOp st none).map (fun r => r.2.1)

/-- `baseStage.Last` (`src/stream.go:203-207`). -/
def Last {α : Type} (st : startOp α) : Option (Option α) :=
  (startOpEnd lastOp st none).map (fun r => r.2.1)

/-- `baseStage.Max` (`src/stream.go:167-171`). -/
def Max {α : Type} (st : startOp α) (cmp : ComparatorFunc α) : Option (Option α) :=
  (startOpEnd (maxOp cmp) st none).map (fun r => r.2.1)

/-- `baseStage.Min` (`src/stream.go:173-177`). -/
def Min {α : Type} (st : startOp α) (cmp : ComparatorFunc α) : Option (Option α) :=
  (startOpEnd (minOp cmp) st none).map (fun r => r.2.1)

end baseStage

/-- `baseStage.Collect` returning the driven source's state as well. -/
def driveCollect {α : Type} (st : startOp α) : Option (startOp α × List α) :=
  (startOpEnd collectOp st []).map (fun r => (r.1, r.2.1))

/-! ### Basic lemmas -/

theorem copyLoop_aux {α : Type} (xs : List α) :
    ∀ acc : List α, xs.foldl (fun a v => a ++ [v]) acc = acc ++ xs := by
  induction xs with
  | nil => intro acc; simp [List.foldl]
  | cons v rest ih =>
    intro acc
    simp only [List.foldl, ih]
    simp

theorem copyLoop_eq {α : Type} (xs : List α) : copyLoop xs = xs := by
  simpa using copyLoop_aux xs []

theorem driveLoop_collect {α : Type} (xs : List α) :
    ∀ s : List α, driveLoop collectOp xs s = (s ++ xs, xs.map Event.accept) := by
  induction xs with
  | nil => intro s; simp [driveLoop]
  | cons v rest ih =>
    intro s
    have hacc : collectOp.accept s v = s ++ [v] := rfl
    have hcan : collectOp.cancellationRequested (s ++ [v]) = false := rfl
    simp only [driveLoop, hacc, hcan, Bool.false_eq_true, if_false, ih, List.map_cons]
    simp

theorem Collect_of_open {α : Type} (xs : List α) :
    baseStage.Collect { data := xs, closed := false } = some xs := by
  unfold baseStage.Collect startOpEnd
  simp only [show ({ data := xs, closed := false } : startOp α).closed = false from rfl,
    Bool.false_eq_true, if_false, driveLoop_collect]
  rfl

/-! ### Claims -/

/-- C1: the spec says the first drive marks the source closed and a
second drive panics with `PipelineClosed`.  The code has the `closed`
check (`src/stream.go:263-265`) but never assigns `closed = true`, so a
second drive succeeds and re-emits the elements: here `New([1,2])`
collects `[1,2]`, its returned source state still has `closed = false`,
and collecting again from that state yields `[1,2]` again.  Driving a
source whose `closed` flag is `true` does panic, showing the dead
check. -/
theorem c1_second_drive_succeeds :
    driveCollect { data := [1, 2], closed := false } =
      some ({ data := [1, 2], closed := false }, [1, 2]) ∧
    ((driveCollect { data := [1, 2], closed := false }).bind
        (fun p => driveCollect p.1)) =
      some ({ data := [1, 2], closed := false }, [1, 2]) ∧
    startOpEnd (collectOp) { data := ([1, 2] : List Nat), closed := true } [] = none := by
  refine ⟨rfl, rfl, rfl⟩

/-- C2 counterexample: the claim says the default
`cancellationRequested` returns the downstream's value.  Take a `mapOp`
(which does not override the default) whose downstream is a `limitOp 0`:
the downstream reports `true`, but the map stage reports `false`. -/
theorem c2_counterexample :
    (limitOp 0 (collectOp : SinkM (List Nat) Nat)).cancellationRequested (0, []) = true ∧
    (mapSink (fun x => x) (limitOp 0 (collectOp : SinkM (List Nat) Nat))).cancellationRequested
      (0, []) = false := by
  refine ⟨rfl, rfl⟩

/-- C2 amended: the default implementation (`src/stream.go:234-236`)
returns `false` unconditionally — even when the downstream sink
requests cancellation, a stage using the default (e.g. `mapOp`) reports
`false`, so cancellation does not propagate upstream through default
stages. -/
theorem c2_theorem {σ α : Type} (f : MapFunc α) (m : SinkM σ α) (s : σ)
    (_h : m.cancellationRequested s = true) :
    (mapSink f m).cancellationRequested s = false := rfl

/-- C2 witness: the amended theorem at the concrete stage of the
counterexample. -/
theorem c2_witness :
    (limitOp 0 (collectOp : SinkM (List Nat) Nat)).cancellationRequested (0, []) = true ∧
    (mapSink (fun x : Nat => x + 1)
        (limitOp 0 (collectOp : SinkM (List Nat) Nat))).cancellationRequested (0, []) = false :=
  ⟨rfl, c2_theorem (fun x : Nat => x + 1) (limitOp 0 collectOp) (0, []) rfl⟩

/-- C5: with no intermediate stages, wrapping a slice with `New` and
collecting returns the original list: the adapter's copy loop preserves
the elements in order, and `collectOp` never cancels, so the drive
delivers every element in ascending index order. -/
theorem c5_theorem {α : Type} (xs : List α) :
    (New (GoValue.slice xs)).bind baseStage.Collect = some xs := by
  simp [New, setStreamData, derefOnce, copyLoop_eq, Option.bind, Collect_of_open]

/-- C7: `First`, `Last`, `Max` and `Min` on an empty-input pipeline all
return the nil sentinel (`some none`: the drive succeeds and the
terminal's stored value is nil). -/
theorem c7_theorem {α : Type} (cmp : ComparatorFunc α) :
    baseStage.First ({ data := [], closed := false } : startOp α) = some none ∧
    baseStage.Last ({ data := [], closed := false } : startOp α) = some none ∧
    baseStage.Max ({ data := [], closed := false } : startOp α) cmp = some none ∧
    baseStage.Min ({ data := [], closed := false } : startOp α) cmp = some none := by
  refine ⟨rfl, rfl, rfl, rfl⟩

/-- C8: `Of(v₀, v₁, …)` is `New` applied to the slice of its arguments
(`src/stream.go:102-104`), hence observationally equivalent: the
constructed source is the same, and every terminal operation yields the
same result on both. -/
theorem c8_theorem {α : Type} (es : List α) (cmp : ComparatorFunc α) :
    Of es = New (GoValue.slice es) ∧
    Of es = some { data := es, closed := false } ∧
    (Of es).bind baseStage.Collect = (New (GoValue.slice es)).bind baseStage.Collect ∧
    (Of es).bind baseStage.Count = (New (GoValue.slice es)).bind baseStage.Count ∧
    (Of es).bind baseStage.First = (New (GoValue.slice es)).bind baseStage.First ∧
    (Of es).bind baseStage.Last = (New (GoValue.slice es)).bind baseStage.Last ∧
    (Of es).bind (fun st => baseStage.Max st cmp) =
      (New (GoValue.slice es)).bind (fun st => baseStage.Max st cmp) ∧
    (Of es).bind (fun st => baseStage.Min st cmp) =
      (New (GoValue.slice es)).bind (fun st => baseStage.Min st cmp) := by
  refine ⟨rfl, ?_, rfl, rfl, rfl, rfl, rfl, rfl⟩
  simp [Of, New, setStreamData, derefOnce, copyLoop_eq]

theorem driveLoop_spec {σ α : Type} (m : SinkM σ α) :
    ∀ (data : List α) (s : σ),
    ∃ k, k ≤ data.length ∧
      (driveLoop m data s).2 = (data.take k).map Event.accept ∧
      (driveLoop m data s).1 = List.foldl m.accept s (data.take k) ∧
      (∀ j, j + 1 < k →
        m.cancellationRequested (List.foldl m.accept s (data.take (j + 1))) = false) ∧
      (k < data.length →
        m.cancellationRequested (List.foldl m.accept s (data.take k)) = true) := by
  intro data
  induction data with
  | nil =>
    intro s
    refine ⟨0, Nat.le_refl 0, rfl, rfl, ?_, ?_⟩
    · intro j hj; omega
    · intro hlt; simp at hlt
  | cons v rest ih =>
    intro s
    by_cases hc : m.cancellationRequested (m.accept s v) = true
    · refine ⟨1, ?_, ?_, ?_, ?_, ?_⟩
      · simp
      · simp [driveLoop, hc]
      · simp [driveLoop, hc]
      · intro j hj; omega
      · intro _; simpa using hc
    · have hcf : m.cancellationRequested (m.accept s v) = false :=
        Bool.not_eq_true _ ▸ Bool.of_not_eq_true hc
      obtain ⟨k, hk, h2, h1, hmin, hstop⟩ := ih (m.accept s v)
      refine ⟨k + 1, ?_, ?_, ?_, ?_, ?_⟩
      · simpa using Nat.succ_le_succ hk
      · simp only [driveLoop, hcf, Bool.false_eq_true, if_false,
          List.take_succ_cons, List.map_cons]
        exact congrArg _ h2
      · simp only [driveLoop, hcf, Bool.false_eq_true, if_false,
          List.take_succ_cons, List.foldl_cons]
        exact h1
      · intro j hj
        cases j with
        | zero => simpa using hcf
        | succ j' =>
          have hj' : j' + 1 < k := by omega
          simpa [List.take_succ_cons, List.foldl_cons] using hmin j' hj'
      · intro hlt
        have hlt' : k < rest.length := by simpa using hlt
        simpa [List.take_succ_cons, List.foldl_cons] using hstop hlt'

/-- C4: on a sequential pipeline, `startOp.end` emits `begin(len(data))`
first, then delivers a prefix of `data` via `accept` in ascending index
order, polls `cancellationRequested` after each `accept` (delivering no
further element past the first `true`, and stopping only there), and
finally emits `end` exactly once. -/
theorem c4_theorem {σ α : Type} (m : SinkM σ α) (data : List α) (s₀ : σ) :
    ∃ k, k ≤ data.length ∧
      startOpEnd m { data := data, closed := false } s₀ =
        some ({ data := data, closed := false },
          m.endOp (List.foldl m.accept (m.begin s₀ data.length) (data.take k)),
          Event.begin data.length ::
            ((data.take k).map Event.accept ++ [Event.endEv])) ∧
      (∀ j, j + 1 < k →
        m.cancellationRequested
          (List.foldl m.accept (m.begin s₀ data.length) (data.take (j + 1))) = false) ∧
      (k < data.length →
        m.cancellationRequested
          (List.foldl m.accept (m.begin s₀ data.length) (data.take k)) = true) := by
  obtain ⟨k, hk, h2, h1, hmin, hstop⟩ := driveLoop_spec m data (m.begin s₀ data.length)
  refine ⟨k, hk, ?_, hmin, hstop⟩
  have hse : startOpEnd m { data := data, closed := false } s₀ =
      some (({ data := data, closed := false } : startOp α),
        m.endOp (driveLoop m data (m.begin s₀ data.length)).1,
        Event.begin data.length ::
          ((driveLoop m data (m.begin s₀ data.length)).2 ++ [Event.endEv])) := rfl
  rw [hse, h1, h2]

/-- An `accept` event of the sink protocol. -/
def isAcceptEv {α : Type} : Event α → Bool
  | .accept _ => true
  | _ => false

/-- The number of `accept` deliveries in an event trace. -/
def countAccepts {α : Type} (evs : List (Event α)) : Nat :=
  evs.countP isAcceptEv

theorem driveLoop_limit_count {σ α : Type} (n : Nat) (m : SinkM σ α) :
    ∀ (data : List α) (c : Nat) (s : σ),
      countAccepts ((driveLoop (limitOp n m) data (c, s)).2) ≤ (n - c) + 1 := by
  intro data
  induction data with
  | nil => intro c s; simp [driveLoop, countAccepts]
  | cons v rest ih =>
    intro c s
    by_cases hcn : c < n
    · have ha : (limitOp n m).accept (c, s) v = (c + 1, m.accept s v) := by
        simp [limitOp, hcn]
      by_cases hle : n ≤ c + 1
      · have hcanc :
            (limitOp n m).cancellationRequested (c + 1, m.accept s v) = true := by
          simp [limitOp, hle]
        simp only [driveLoop, ha, hcanc, if_true]
        simp [countAccepts, List.countP_cons, isAcceptEv]
      · have hcanc :
            (limitOp n m).cancellationRequested (c + 1, m.accept s v) = false := by
          simp [limitOp]; omega
        simp only [driveLoop, ha, hcanc, Bool.false_eq_true, if_false]
        have hrec := ih (c + 1) (m.accept s v)
        simp only [countAccepts] at hrec ⊢
        simp [List.countP_cons, isAcceptEv]
        omega
    · have ha : (limitOp n m).accept (c, s) v = (c, s) := by
        simp [limitOp, hcn]
      have hcanc : (limitOp n m).cancellationRequested (c, s) = true := by
        simp [limitOp]; omega
      simp only [driveLoop, ha, hcanc, if_true]
      simp [countAccepts, List.countP_cons, isAcceptEv]

/-- C3 counterexample: a `Map` stage (counting its `MapFunc`
invocations) followed by `Limit(1)` over the five-element input
`[0,1,2,3,4]`.  The map stage does not override `cancellationRequested`,
so the source never observes the limit's cancellation: the mapper is
invoked 5 times, exceeding the claimed bound `n + 1 = 2`. -/
theorem c3_counterexample :
    ((startOpEnd
        (countingMapSink (fun x => x + 1) (limitOp 1 (collectOp : SinkM (List Nat) Nat)))
        { data := [0, 1, 2, 3, 4], closed := false } (0, 0, [])).map
      (fun r => r.2.1.1)) = some 5 ∧ ¬ (5 ≤ 1 + 1) :=
  ⟨rfl, by decide⟩

/-- C3 amended: the `n + 1` bound on upstream accepts holds when
`Limit(n)` is the stage the source drives directly (no intervening
default stage): the source delivers at most `n + 1` accepts before its
drive loop observes the limit's cancellation.  With intervening
default-cancellation stages (e.g. `Map`), cancellation does not
propagate and upstream callbacks run once per source element. -/
theorem c3_theorem {σ α : Type} (n : Nat) (data : List α) (m : SinkM σ α) (s₀ : σ) :
    ∃ s' evs,
      startOpEnd (limitOp n m) { data := data, closed := false } (0, s₀) =
        some ({ data := data, closed := false }, s', evs) ∧
      countAccepts evs ≤ n + 1 := by
  refine ⟨(limitOp n m).endOp
      (driveLoop (limitOp n m) data ((limitOp n m).begin (0, s₀) data.length)).1,
    Event.begin data.length ::
      (driveLoop (limitOp n m) data ((limitOp n m).begin (0, s₀) data.length)).2 ++
        [Event.endEv], rfl, ?_⟩
  have hcount := driveLoop_limit_count n m data 0 (m.begin s₀ (min data.length n))
  have hbeg : (limitOp n m).begin (0, s₀) data.length =
      (0, m.begin s₀ (min data.length n)) := rfl
  rw [hbeg]
  simp only [countAccepts] at hcount ⊢
  simp [List.countP_cons, List.countP_append, isAcceptEv]
  omega

/-- C6 counterexample: a pointer to a slice is not itself of slice or
array kind, yet `setStreamData` accepts it (after the one-level
dereference) instead of panicking with `NotACollection`. -/
theorem c6_counterexample :
    isOrderedContainer (GoValue.ptr (GoValue.slice [(1 : Nat)])) = false ∧
    setStreamData (GoValue.ptr (GoValue.slice [(1 : Nat)])) = some [1] :=
  ⟨rfl, rfl⟩

/-- C6 amended: `setStreamData` succeeds exactly when its argument,
after one pointer dereference, is of slice or array kind; every other
argument panics with `NotACollection`. -/
theorem c6_theorem {α : Type} (v : GoValue α) :
    (setStreamData v).isSome = isOrderedContainer (derefOnce v) := by
  cases v with
  | slice xs => rfl
  | array xs => rfl
  | other => rfl
  | ptr w => cases w <;> rfl

/-- A heap of Go containers: a memory of slot contents indexed by
location, with every location `≥ next` unallocated. -/
structure Heap (α : Type) where
  mem : Nat → List α
  next : Nat

/-- The allocation performed by `setStreamData`
(`src/stream.go:113-118`): `make` a fresh buffer at an unallocated
location, copy the elements of the source container into it
(`copyLoop`), and let `stream.data` point at the fresh buffer.  Returns
the heap and the stream's data location. -/
def allocCopy {α : Type} (h : Heap α) (src : Nat) : Heap α × Nat :=
  ({ mem := fun l => if l = h.next then copyLoop (h.mem src) else h.mem l,
     next := h.next + 1 }, h.next)

/-- Overwrite the container at location `l` (a caller mutating or
truncating its own array/slice). -/
def writeH {α : Type} (h : Heap α) (l : Nat) (xs : List α) : Heap α :=
  { mem := fun q => if q = l then xs else h.mem q, next := h.next }

/-- Driving the pipeline with a `Collect` terminal, at heap level: the
drive loop (`src/stream.go:267-272`) only reads `s.data` and writes no
container, so the heap is returned unchanged. -/
def driveCollectH {α : Type} (h : Heap α) (loc : Nat) : Heap α × Option (List α) :=
  (h, baseStage.Collect { data := h.mem loc, closed := false })

/-- C10: `New` copies the input container into a freshly allocated
buffer: the stream's data location is distinct from the input's, the
input's contents are unchanged by construction, driving leaves the heap
(hence the input container) unchanged, the drive emits the input's
contents as of construction time, and mutating the input container
after construction does not change what the pipeline emits. -/
theorem c10_theorem {α : Type} (h : Heap α) (src : Nat) (ys : List α)
    (hsrc : src < h.next) :
    (allocCopy h src).2 ≠ src ∧
    ((allocCopy h src).1).mem src = h.mem src ∧
    (driveCollectH (allocCopy h src).1 (allocCopy h src).2).1 = (allocCopy h src).1 ∧
    (driveCollectH (allocCopy h src).1 (allocCopy h src).2).2 = some (h.mem src) ∧
    (driveCollectH (writeH (allocCopy h src).1 src ys) (allocCopy h src).2).2 =
      some (h.mem src) := by
  have hne : h.next ≠ src := by omega
  have h4 : ((allocCopy h src).1).mem h.next = copyLoop (h.mem src) := by
    show (if h.next = h.next then copyLoop (h.mem src) else h.mem h.next) = _
    rw [if_pos rfl]
  refine ⟨hne, ?_, rfl, ?_, ?_⟩
  · show (if src = h.next then copyLoop (h.mem src) else h.mem src) = h.mem src
    rw [if_neg (fun e => hne e.symm)]
  · show baseStage.Collect
        { data := ((allocCopy h src).1).mem h.next, closed := false } = some (h.mem src)
    rw [h4, copyLoop_eq]
    exact Collect_of_open _
  · have h5 : (writeH (allocCopy h src).1 src ys).mem h.next = copyLoop (h.mem src) := by
      show (if h.next = src then ys else ((allocCopy h src).1).mem h.next) = _
      rw [if_neg hne, h4]
    show baseStage.Collect
        { data := (writeH (allocCopy h src).1 src ys).mem h.next, closed := false } =
      some (h.mem src)
    rw [h5, copyLoop_eq]
    exact Collect_of_open _

/-- A two-element container at location 0 of an otherwise empty heap. -/
def heap₀ : Heap Nat :=
  { mem := fun l => if l = 0 then [1, 2] else [], next := 1 }

/-- C10 witness: the frame theorem at the concrete heap `heap₀`, source
location 0, truncating the input to `[]` after construction. -/
theorem c10_witness :
    0 < heap₀.next ∧
    ((allocCopy heap₀ 0).2 ≠ 0 ∧
      ((allocCopy heap₀ 0).1).mem 0 = heap₀.mem 0 ∧
      (driveCollectH (allocCopy heap₀ 0).1 (allocCopy heap₀ 0).2).1 = (allocCopy heap₀ 0).1 ∧
      (driveCollectH (allocCopy heap₀ 0).1 (allocCopy heap₀ 0).2).2 = some (heap₀.mem 0) ∧
      (driveCollectH (writeH (allocCopy heap₀ 0).1 0 []) (allocCopy heap₀ 0).2).2 =
        some (heap₀.mem 0)) :=
  ⟨by decide, c10_theorem heap₀ 0 [] (by decide)⟩

/-- C9: `setStreamData` dereferences a pointer argument before the
container check (`src/stream.go:108-110`), so `New` on a pointer to a
slice or array builds the same source stage as `New` on the slice or
array itself. -/
theorem c9_theorem {α : Type} (xs : List α) :
    New (GoValue.ptr (GoValue.slice xs)) = New (GoValue.slice xs) ∧
    New (GoValue.ptr (GoValue.array xs)) = New (GoValue.array xs) := by
  refine ⟨rfl, rfl⟩

end GoStream
